import Mathlib

/-!
# Verification of the lakehouse ETL pipeline

Shallow embedding of the ETL/orchestration code of the
`fastapi_project_supabase_typesense` repository, with the spec claims settled
as theorems.  Modules embedded:

* `etl/bronze_to_silver.py`   (namespace `BronzeToSilver`)
* `orchestration/run_etl.py`  (namespace `RunEtl`)
* `etl/sync_to_supabase.py`   (namespace `SyncToSupabase`)
* `etl/index_projects_typesense.py` (namespace `IndexProjects`)
* `etl/silver_to_gold.py`     (namespace `SilverToGold`)
* `dags/lakehouse_watch_any_file.py` (namespace `WatchAnyFile`)

Python strings are modelled by `String`; the comparison, strip and basename
helpers are re-implemented over `String.data` (lists of characters) so that
every definition evaluates by kernel reduction.
-/

namespace PyStr

/-- Lexicographic less-or-equal on character lists, comparing code points —
the order Python uses for `sorted` on `str`. -/
def strLeb : List Char → List Char → Bool
  | [], _ => true
  | _ :: _, [] => false
  | a :: as, b :: bs =>
    if a.val.toNat < b.val.toNat then true
    else if b.val.toNat < a.val.toNat then false
    else strLeb as bs

/-- Python `a <= b` on strings. -/
def pyLe (a b : String) : Bool := strLeb a.data b.data

/-- Insert a string into a (sorted) list, keeping `pyLe` order. -/
def insertSorted (s : String) : List String → List String
  | [] => [s]
  | x :: xs => if pyLe s x then s :: x :: xs else x :: insertSorted s xs

/-- Python `sorted(...)` on a list of strings (insertion sort). -/
def pySorted (l : List String) : List String := l.foldr insertSorted []

/-- Python `sorted(set(...))` on strings: deduplicate, then sort. -/
def pySortedSet (l : List String) : List String := pySorted l.eraseDups

/-- ASCII whitespace predicate used by `str.strip()` (the filenames and ids
stripped in this code base only ever carry ASCII blanks). -/
def isSpace (c : Char) : Bool :=
  c.val.toNat = 32 || c.val.toNat = 9 || c.val.toNat = 10 || c.val.toNat = 13

/-- Python `s.strip()`: drop whitespace from both ends. -/
def pyStrip (s : String) : String :=
  ⟨((s.data.dropWhile isSpace).reverse.dropWhile isSpace).reverse⟩

/-- `os.path.basename`: the part of the path after the last slash. -/
def basename (p : String) : String :=
  ⟨((p.data.reverse.takeWhile (fun c => !(c == '/'))).reverse)⟩

end PyStr

namespace BronzeToSilver

/-- The per-dataset handler functions of `etl/bronze_to_silver.py`
(`run_projects_only`, `run_organizations_only`, ..., and the
`run_passthrough` lambdas). -/
inductive Handler
  | projects
  | organizations
  | topics
  | legalBasis
  | policyPriorities
  | euroSciVoc
  | webItem
  | webLink
deriving DecidableEq, Repr

/-- `FILE_TO_FUNC`: the static filename → handler mapping of
`etl/bronze_to_silver.py` (keys are plain CSV basenames). -/
def FILE_TO_FUNC : String → Option Handler := fun f =>
  if f == "project.csv" then some .projects
  else if f == "organization.csv" then some .organizations
  else if f == "topics.csv" then some .topics
  else if f == "legalBasis.csv" then some .legalBasis
  else if f == "policyPriorities.csv" then some .policyPriorities
  else if f == "euroSciVoc.csv" then some .euroSciVoc
  else if f == "webItem.csv" then some .webItem
  else if f == "webLink.csv" then some .webLink
  else none

/-- Observable outcome of `bronze_to_silver.run_files`: which handlers ran
(in iteration order) and which inputs only produced the
`[WARN] sin handler para {f}` log line. -/
structure RunFilesResult where
  executed : List Handler
  warned : List String
deriving DecidableEq, Repr

/-- `bronze_to_silver.run_files(changed_files)`: for each entry, look the
name up in `FILE_TO_FUNC`; run the handler when found, otherwise log a
warning and continue (never fail). -/
def run_files (changed_files : List String) : RunFilesResult :=
  { executed := changed_files.filterMap FILE_TO_FUNC
    warned := changed_files.filter (fun f => (FILE_TO_FUNC f).isNone) }

/-- A raw row of `project.csv` after the column renaming that precedes
deduplication in `run_projects_only`: the natural key `projectID` plus the
remaining fields, collapsed into one `payload` component (the per-row type
conversions act on the payload only and never touch the key). -/
structure PRow where
  projectID : String
  payload : String
deriving DecidableEq, Repr

/-- pandas `drop_duplicates(subset=["projectID"])` with the default
`keep="first"`: walk the rows in order and keep a row exactly when its key
has not been seen before. -/
def dropDupByKeyFirst : List PRow → List String → List PRow
  | [], _ => []
  | r :: rs, seen =>
    if r.projectID ∈ seen then dropDupByKeyFirst rs seen
    else r :: dropDupByKeyFirst rs (r.projectID :: seen)

/-- The tail of `run_projects_only` (`etl/bronze_to_silver.py`): apply the
per-row, key-preserving conversions (`_to_date`, `_to_num`,
`duration_days`, modelled by `convert` on the payload), then
`drop_duplicates(subset=["projectID"])` keeping the first occurrence. -/
def run_projects_silver (convert : String → String) (rows : List PRow) : List PRow :=
  dropDupByKeyFirst (rows.map (fun r => ⟨r.projectID, convert r.payload⟩)) []

end BronzeToSilver

namespace RunEtl

open PyStr

/-- `FILE2SOURCE` of `orchestration/run_etl.py`: CSV basename → silver
source name. -/
def FILE2SOURCE : String → Option String := fun name =>
  if name == "organization.csv" then some "organizations"
  else if name == "project.csv" then some "projects"
  else if name == "topics.csv" then some "topics"
  else if name == "legalBasis.csv" then some "legalBasis"
  else if name == "policyPriorities.csv" then some "policyPriorities"
  else if name == "euroSciVoc.csv" then some "euroSciVoc"
  else if name == "webItem.csv" then some "webItem"
  else if name == "webLink.csv" then some "webLink"
  else none

/-- `GOLD_BY_SOURCE` of `orchestration/run_etl.py`: silver source → gold
targets that depend on it. -/
def GOLD_BY_SOURCE : String → List String := fun s =>
  if s == "projects" then
    ["dim_project", "fact_funding", "dim_status", "dim_program",
     "bridge_project_program", "dim_topic", "bridge_project_topic"]
  else if s == "organizations" then ["dim_organization"]
  else []

/-- `_normalize_changed_files`: basename + strip each entry, look it up in
`FILE2SOURCE`, collect the hits into a set (unknown names are only logged).
The set is modelled as the deduplicated hit list. -/
def _normalize_changed_files (changed_files : List String) : List String :=
  (changed_files.filterMap (fun f => FILE2SOURCE (pyStrip (basename f)))).eraseDups

/-- `_gold_targets_for_sources`: union of `GOLD_BY_SOURCE` over the affected
sources (a set, modelled deduplicated). -/
def _gold_targets_for_sources (sources : List String) : List String :=
  (sources.flatMap GOLD_BY_SOURCE).eraseDups

/-- Shape of the `etl.bronze_to_silver` module as probed by the orchestrator
with `hasattr` / `inspect.signature`. -/
structure B2SModule where
  has_run_files : Bool
  has_run : Bool
  run_accepts_only : Bool
deriving DecidableEq, Repr

/-- What the bronze→silver wrapper ends up invoking on the module. -/
inductive B2SCall
  | runFiles (changed_files : List String)
  | runOnly (only : List String)
  | fullRun
  | noop
deriving DecidableEq, Repr

/-- `_run_bronze_to_silver` of `orchestration/run_etl.py`: prefer
`run_files(changed_files=...)`; else `run(only=...)` when `run` accepts
`only`; else raise (`Except.error`) — never a full run. -/
def _run_bronze_to_silver (m : B2SModule) (only_sources : List String)
    (bronze_changed_files : List String) : Except String B2SCall :=
  let files := bronze_changed_files
  let subset := pySortedSet only_sources
  if m.has_run_files then .ok (.runFiles files)
  else if m.has_run then
    if m.run_accepts_only then
      if subset.isEmpty then .ok .noop
      else .ok (.runOnly subset)
    else
      .error "bronze_to_silver.run existe pero no acepta only. Se requiere ejecucion parcial; no se hara run() completo."
  else
    .error "bronze_to_silver no expone ni run_files(changed_files=...) ni run(only=...). Se requiere implementacion parcial."

/-- Shape of the `etl.silver_to_gold` module as probed with `hasattr`. -/
structure S2GModule where
  has_run_targets : Bool
deriving DecidableEq, Repr

/-- What the silver→gold wrapper ends up invoking on the module. -/
inductive S2GCall
  | runTargets (targets : List String)
  | fullRun
  | noop
deriving DecidableEq, Repr

/-- `_run_silver_to_gold` of `orchestration/run_etl.py`: empty target set is
a no-op; otherwise call `run_targets` when present, else raise — never a
full run. -/
def _run_silver_to_gold (m : S2GModule) (targets : List String) :
    Except String S2GCall :=
  if targets.isEmpty then .ok .noop
  else if m.has_run_targets then .ok (.runTargets (pySortedSet targets))
  else
    .error "silver_to_gold no expone run_targets(targets=...). Se requiere ejecucion parcial; no se hara run() completo."

/-- The repository's actual `etl.bronze_to_silver` module: it defines
`run_files(changed_files)` and `run()`; `run` takes no `only` parameter. -/
def b2s_actual : B2SModule := { has_run_files := true, has_run := true, run_accepts_only := false }

/-- The repository's actual `etl.silver_to_gold` module: it defines
`run_targets(targets)`. -/
def s2g_actual : S2GModule := { has_run_targets := true }

/-- Trace of one `run_subset(changed_files)` call: the affected sources, the
bronze→silver invocation (absent when no source matched), the gold targets
and the silver→gold invocation (absent when no target). -/
structure SubsetTrace where
  sources : List String
  b2s : Option (Except String B2SCall)
  targets : List String
  s2g : Option (Except String S2GCall)
deriving Repr

/-- `run_subset` of `orchestration/run_etl.py`.  Note the absolute paths: it
hands `_run_bronze_to_silver` the entries rebuilt as
`str(BRONZE_DIR / os.path.basename(p))`. -/
def run_subset (changed_files : List String) : SubsetTrace :=
  let sources := _normalize_changed_files changed_files
  let bronze_changed_files :=
    (changed_files.filter (fun p => !(p == ""))).map
      (fun p => "/lake/bronze/" ++ basename p)
  let b2s :=
    if sources.isEmpty then none
    else some (_run_bronze_to_silver b2s_actual sources bronze_changed_files)
  let targets := _gold_targets_for_sources sources
  let s2g :=
    if targets.isEmpty then none
    else some (_run_silver_to_gold s2g_actual targets)
  { sources := sources, b2s := b2s, targets := targets, s2g := s2g }

/-- Trace of one `run_full()` call: what each stage wrapper was invoked with
(`only_sources=None`, `bronze_changed_files=None`, `targets=None`, i.e.
empty), plus the unconditional `sync_to_supabase.run()` call. -/
structure FullTrace where
  b2s : Except String B2SCall
  s2g : Except String S2GCall
  sync_ran : Bool
deriving Repr

/-- `run_full` of `orchestration/run_etl.py`: calls
`_run_bronze_to_silver(only_sources=None, bronze_changed_files=None)`, then
`_run_silver_to_gold(targets=None)`, then `sync_to_supabase.run()`. -/
def run_full : FullTrace :=
  { b2s := _run_bronze_to_silver b2s_actual [] []
    s2g := _run_silver_to_gold s2g_actual []
    sync_ran := true }

end RunEtl

namespace SyncToSupabase

/-- `TABLES` of `etl/sync_to_supabase.py`: (parquet filename, table name)
pairs, in load order. -/
def TABLES : List (String × String) :=
  [("dim_project.parquet", "dim_project"),
   ("dim_organization.parquet", "dim_organization"),
   ("fact_funding.parquet", "fact_funding"),
   ("dim_time.parquet", "dim_time"),
   ("dim_country.parquet", "dim_country"),
   ("dim_program.parquet", "dim_program"),
   ("bridge_project_program.parquet", "bridge_project_program"),
   ("dim_topic.parquet", "dim_topic"),
   ("bridge_project_topic.parquet", "bridge_project_topic"),
   ("dim_status.parquet", "dim_status"),
   ("bridge_project_status.parquet", "bridge_project_status")]

/-- `MAX_PARAMS` of `etl/sync_to_supabase.py`. -/
def MAX_PARAMS : Nat := 60000

/-- `_safe_chunksize(df)`: `max(1, MAX_PARAMS // max(1, len(df.columns)))`,
as a function of the column count. -/
def _safe_chunksize (ncols : Nat) : Nat := max 1 (MAX_PARAMS / max 1 ncols)

/-- The connection a statement is executed on during `run()`:
`Conn.txn` is the single connection of the `with engine.begin() as conn`
transaction opened for the run; `Conn.engine` marks a statement handed the
`engine` itself, which checks out a fresh connection and commits in its own
transaction when the statement completes. -/
inductive Conn
  | txn
  | engine
deriving DecidableEq, Repr

/-- The database-visible statements `run()` issues, in order.
`replaceTable` is the `df.to_sql(..., if_exists="replace")` bulk load;
`countRows` the `SELECT COUNT(*)`; `createIndex` one statement of
`_create_indexes` (each wrapped in `try/except`, so `errors_caught`). -/
inductive Effect
  | replaceTable (table : String) (chunksize : Nat) (conn : Conn)
  | countRows (table : String) (conn : Conn)
  | createIndex (table : String) (conn : Conn) (errors_caught : Bool)
deriving DecidableEq, Repr

/-- The tables named by the `CREATE INDEX` statements of `_create_indexes`,
in statement order. -/
def INDEX_TABLES : List String :=
  ["dim_project", "dim_project", "dim_organization", "dim_organization",
   "dim_time", "dim_country", "dim_program", "dim_topic", "dim_status",
   "bridge_project_program", "bridge_project_program",
   "bridge_project_topic", "bridge_project_topic",
   "bridge_project_status", "bridge_project_status",
   "fact_funding", "fact_funding", "fact_funding"]

/-- The gold layer, as `run()` observes it: parquet filename → (row count,
column count); a missing file reads as an empty frame `(0, 0)`. -/
def GoldLayer : Type := String → Nat × Nat

/-- `run(only)` of `etl/sync_to_supabase.py`, as the ordered list of
statements it issues.  For each selected `(filename, table)` pair: skip when
the frame is empty, else `df.to_sql(table, con=engine, ...)` — note the
source passes the `engine`, not the run's `conn` — followed by
`conn.execute(SELECT COUNT(*))` on the run's transaction connection;
finally `_create_indexes(conn)` on the run's transaction connection. -/
def run_effects (gold : GoldLayer) (only : Option (List String)) : List Effect :=
  let selected :=
    match only with
    | none => TABLES
    | some o => if o.isEmpty then TABLES else TABLES.filter (fun ft => ft.2 ∈ o)
  (selected.flatMap (fun ft =>
    let d := gold ft.1
    if d.1 = 0 then []
    else [Effect.replaceTable ft.2 (_safe_chunksize d.2) Conn.engine,
          Effect.countRows ft.2 Conn.txn]))
  ++ INDEX_TABLES.map (fun t => Effect.createIndex t Conn.txn true)

/-- The connections the table-replacement statements of a run are executed
on, in order. -/
def replacement_conns (effects : List Effect) : List Conn :=
  effects.filterMap (fun e =>
    match e with
    | .replaceTable _ _ c => some c
    | _ => none)

/-- Commit semantics when the run raises right before executing the effect
at index `failAt`: a statement on `Conn.engine` ran in its own transaction
and is already committed; every statement on `Conn.txn` is rolled back with
the run's transaction.  Returns the table replacements that remain
committed. -/
def committed_replacements (effects : List Effect) (failAt : Nat) : List String :=
  (effects.take failAt).filterMap (fun e =>
    match e with
    | .replaceTable t _ .engine => some t
    | _ => none)

/-- A concrete gold layer: `dim_project.parquet` holds 10 rows × 5 columns,
`dim_organization.parquet` 8 rows × 4 columns, everything else is absent. -/
def goldTwoTables : GoldLayer := fun f =>
  if f == "dim_project.parquet" then (10, 5)
  else if f == "dim_organization.parquet" then (8, 4)
  else (0, 0)

end SyncToSupabase

namespace IndexProjects

/-- An embedding vector (the service returns one list of numbers per
input). -/
abbrev Vec := List Int

/-- A row of `lake/gold/dim_project.parquet` after the renaming
`projectID → project_id` in `main()`.  Entity rows carry a non-null integer
id (`_fetch_existing_hashes` and the upsert key are integer ids); text
fields may be missing (pandas `None`/`NaN`, modelled `Option`). -/
structure ProjRow where
  project_id : Int
  title : Option String
  abstract : Option String
  country : Option String
  year : Option Int
deriving DecidableEq, Repr

/-- Python `x or ""` on an optional string: `None` (and `""`) collapse
to `""`. -/
def pyOrEmpty : Option String → String
  | none => ""
  | some s => s

/-- Python `str(row.get("year") or "")`: `None` and `0` are falsy and give
`""`; any other int prints as itself. -/
def pyYearStr : Option Int → String
  | none => ""
  | some y => if y = 0 then "" else toString y

/-- `_concat_text` of `etl/index_projects_typesense.py`:
`" | ".join([title, abstract, country, year]).strip()`. -/
def _concat_text (r : ProjRow) : String :=
  PyStr.pyStrip (String.intercalate " | "
    [pyOrEmpty r.title, pyOrEmpty r.abstract, pyOrEmpty r.country, pyYearStr r.year])

/-- The JSON body the embedding service answered with, as
`_embed_batch_sync` sees it after `r.json()`. -/
inductive EmbedResponse
  | dictWithEmbeddings (embeddings : List Vec)
  | listResp (vecs : List Vec)
  | otherFormat
deriving DecidableEq, Repr

/-- Response handling of `_embed_batch_sync`
(`etl/index_projects_typesense.py`): a dict with an `embeddings` key or a
bare list is returned as-is; any other shape raises.  The input `texts` are
posted but their count is never compared against the reply. -/
def _embed_batch_sync (texts : List String) (resp : EmbedResponse) :
    Except String (List Vec) :=
  let _ := texts
  match resp with
  | .dictWithEmbeddings e => .ok e
  | .listResp e => .ok e
  | .otherFormat => .error "Formato inesperado del embedder"

/-- A row of the upsert payload handed to `_upsert_rows` (key fields only:
id, content hash, vector). -/
structure InsertRow where
  project_id : Int
  text_hash : String
  embedding : Vec
deriving DecidableEq, Repr

/-- The pairing loop of `main()` step 4:
`for (idx, row), vec in zip(chunk.iterrows(), vecs)` — `zip` stops at the
shorter sequence, so a count mismatch silently drops the excess on either
side. -/
def batch_inserts (hash : String → String) (chunk : List ProjRow) (vecs : List Vec) :
    List InsertRow :=
  (chunk.zip vecs).map (fun rv =>
    { project_id := rv.1.project_id
      text_hash := hash (_concat_text rv.1)
      embedding := rv.2 })

/-- Python dict-key membership `project_id in existing.keys()` for the
existing-hash dict (keys are unique, so membership is lookup success). -/
def isin (existing : List (Int × String)) (pid : Int) : Bool :=
  (List.lookup pid existing).isSome

/-- pandas `df["project_id"].map(existing).fillna("")`: the stored hash for
the id, or `""` when the id is absent. -/
def map_fillna (existing : List (Int × String)) (pid : Int) : String :=
  (List.lookup pid existing).getD ""

/-- The row filter of `main()` step 3 (the `to_compute` mask):
`~project_id.isin(existing) | (project_id.map(existing).fillna("") != hash)`
(the `notna` conjunct is identically true here because entity rows carry an
integer id). -/
def row_selected (existing : List (Int × String)) (pid : Int) (h : String) : Bool :=
  !(isin existing pid) || !(map_fillna existing pid == h)

/-- `to_compute`: the rows of the snapshot selected for re-embedding. -/
def to_compute (existing : List (Int × String)) (hash : String → String)
    (rows : List ProjRow) : List ProjRow :=
  rows.filter (fun r => row_selected existing r.project_id (hash (_concat_text r)))

/-- All strings posted to the embedding service by `main()` step 4, in
order: the `__text` column of `to_compute`, taken in batches of `BATCH`. -/
def embed_inputs (existing : List (Int × String)) (hash : String → String)
    (rows : List ProjRow) (batch : Nat) : List String :=
  ((to_compute existing hash rows).toChunks batch).flatMap
    (fun chunk => chunk.map _concat_text)

/-- The full upsert payload produced by `main()` steps 4–5, given the
embedding service as an oracle `svc` from posted texts to returned
vectors. -/
def upserts (svc : List String → List Vec) (existing : List (Int × String))
    (hash : String → String) (rows : List ProjRow) (batch : Nat) : List InsertRow :=
  ((to_compute existing hash rows).toChunks batch).flatMap
    (fun chunk => batch_inserts hash chunk (svc (chunk.map _concat_text)))

end IndexProjects

namespace SilverToGold

/-- A row of `silver/organizations_project.parquet` as `build_fact_funding`
reads it: the organisation id, the (possibly missing, `NaN`) project id,
and the funding metric columns collapsed to `ecContribution`. -/
structure RelRow where
  organisationID : String
  projectID : Option String
  ecContribution : Option Int
deriving DecidableEq, Repr

/-- pandas `Series.astype(str)` on an object/float column: a missing value
(`NaN`) renders as the literal string `"nan"`; it does not stay null. -/
def pandasStr : Option String → String
  | none => "nan"
  | some s => s

/-- A row of `gold/fact_funding.parquet`. -/
structure FactRow where
  projectID : String
  org_sk : Option Nat
  ecContribution : Option Int
  year : Option Int
deriving DecidableEq, Repr

/-- pandas `drop_duplicates()` (full-row, default `keep="first"`): walk the
rows in order, keeping a row exactly when it has not been seen before. -/
def dropDupFirst {α : Type} [DecidableEq α] : List α → List α → List α
  | [], _ => []
  | x :: xs, seen =>
    if x ∈ seen then dropDupFirst xs seen else x :: dropDupFirst xs (x :: seen)

/-- pandas `merge(dorg[["org_sk","organisationID"]], on="organisationID",
how="left")` for one left row: one output row per matching `dorg` row, or a
single row with null `org_sk` when nothing matches. -/
def mergeOrgSk (dorg : List (Nat × String)) (oid : String) : List (Option Nat) :=
  let ms := dorg.filter (fun p => p.2 == oid)
  if ms.isEmpty then [none] else ms.map (fun p => some p.1)

/-- pandas `merge(dp[["projectID","year"]], on="projectID", how="left")` for
one left row (the year join at the end of `build_fact_funding`; an empty or
column-less `dim_project` behaves like the no-match case). -/
def mergeYear (dp : List (String × Int)) (pid : String) : List (Option Int) :=
  let ms := dp.filter (fun q => q.1 == pid)
  if ms.isEmpty then [none] else ms.map (fun q => some q.2)

/-- `build_fact_funding` of `etl/silver_to_gold.py`:
`none` when either source is empty (nothing is written);
otherwise normalize `projectID` with `astype(str).str.strip()`
(`_norm_project_id_cols`), left-join `org_sk` on `organisationID`,
`dropna(subset=["projectID","org_sk"])` (the `projectID` column holds only
strings after `astype(str)`, so only null `org_sk` drops rows),
`drop_duplicates()`, then left-join `year` from `dim_project`. -/
def build_fact_funding (rel : List RelRow) (dorg : List (Nat × String))
    (dp : List (String × Int)) : Option (List FactRow) :=
  if rel.isEmpty || dorg.isEmpty then none
  else
    let merged := rel.flatMap (fun r =>
      let pid := PyStr.pyStrip (pandasStr r.projectID)
      (mergeOrgSk dorg r.organisationID).map (fun sk =>
        ({ projectID := pid, org_sk := sk,
           ecContribution := r.ecContribution, year := none } : FactRow)))
    let f := dropDupFirst (merged.filter (fun t => t.org_sk.isSome)) []
    some (f.flatMap (fun t => (mergeYear dp t.projectID).map (fun y => { t with year := y })))

end SilverToGold

namespace WatchAnyFile

/-- The changed-file computation of `wait_for_bronze_updates`
(`dags/lakehouse_watch_any_file.py`): with `force`,
`sorted(curr.keys())`; otherwise the sorted names whose current mtime is
strictly greater than `prev.get(name, 0.0)`.  `prev` and `curr` are the
persisted and freshly-stat'ed filename → mtime dicts, modelled as
association lists in dict order. -/
def wait_changed (prev curr : List (String × Nat)) (force : Bool) : List String :=
  if force then PyStr.pySorted (curr.map Prod.fst)
  else PyStr.pySorted
    ((curr.filter (fun p => decide ((List.lookup p.1 prev).getD 0 < p.2))).map Prod.fst)

/-- Modelled from the spec's words (for comparison with `wait_changed`):
the sorted list of present filenames whose modification time strictly
increased, where a file absent from the previous mapping counts as changed;
with the force flag, the sorted list of all present filenames. -/
def changed_spec (prev curr : List (String × Nat)) (force : Bool) : List String :=
  if force then PyStr.pySorted (curr.map Prod.fst)
  else PyStr.pySorted
    ((curr.filter (fun p =>
      match List.lookup p.1 prev with
      | some m0 => decide (m0 < p.2)
      | none => true)).map Prod.fst)

end WatchAnyFile


namespace IndexProjects

/-- A concrete snapshot row (id 1, title "t1"); its concatenation text is
"t1 |  |  |". -/
def rowT1 : ProjRow :=
  { project_id := 1, title := some "t1", abstract := none,
    country := none, year := none }

/-- A concrete snapshot row (id 2, title "t2"). -/
def rowT2 : ProjRow :=
  { project_id := 2, title := some "t2", abstract := none,
    country := none, year := none }

/-- A destination state storing, for id 1, exactly the hash (under the
identity hash function) of `rowT1`'s concatenation text. -/
def existingT1 : List (Int × String) := [((1 : Int), "t1 |  |  |")]

end IndexProjects


/-! ## Helper lemmas -/

namespace PyStr

theorem strLeb_refl (as : List Char) : strLeb as as = true := by
  induction as with
  | nil => rfl
  | cons a as ih => simp [strLeb, ih]

theorem strLeb_total (as bs : List Char) :
    strLeb as bs = true ∨ strLeb bs as = true := by
  induction as generalizing bs with
  | nil => left; rfl
  | cons a as ih =>
    cases bs with
    | nil => right; rfl
    | cons b bs =>
      rcases Nat.lt_trichotomy a.val.toNat b.val.toNat with h | h | h
      · left; simp [strLeb, h]
      · rcases ih bs with hh | hh
        · left; simp [strLeb, h, hh]
        · right; simp [strLeb, h.symm, hh]
      · right; simp [strLeb, h]

theorem strLeb_trans (as bs cs : List Char) (h1 : strLeb as bs = true)
    (h2 : strLeb bs cs = true) : strLeb as cs = true := by
  induction as generalizing bs cs with
  | nil => rfl
  | cons a as ih =>
    cases bs with
    | nil => simp [strLeb] at h1
    | cons b bs =>
      cases cs with
      | nil => simp [strLeb] at h2
      | cons c cs =>
        simp only [strLeb] at h1 h2 ⊢
        rcases Nat.lt_trichotomy a.val.toNat b.val.toNat with hab | hab | hab <;>
          rcases Nat.lt_trichotomy b.val.toNat c.val.toNat with hbc | hbc | hbc
        · rw [if_pos (by omega)]
        · rw [if_pos (by omega)]
        · rw [if_neg (by omega), if_pos (by omega)] at h2; exact absurd h2 (by simp)
        · rw [if_pos (by omega)]
        · rw [if_neg (by omega), if_neg (by omega)] at h1 h2 ⊢
          exact ih bs cs h1 h2
        · rw [if_neg (by omega), if_pos (by omega)] at h2; exact absurd h2 (by simp)
        · rw [if_neg (by omega), if_pos (by omega)] at h1; exact absurd h1 (by simp)
        · rw [if_neg (by omega), if_pos (by omega)] at h1; exact absurd h1 (by simp)
        · rw [if_neg (by omega), if_pos (by omega)] at h1; exact absurd h1 (by simp)

theorem pyLe_total (a b : String) : pyLe a b = true ∨ pyLe b a = true :=
  strLeb_total a.data b.data

theorem pyLe_trans (a b c : String) (h1 : pyLe a b = true) (h2 : pyLe b c = true) :
    pyLe a c = true :=
  strLeb_trans a.data b.data c.data h1 h2

theorem mem_insertSorted (y s : String) (l : List String) :
    y ∈ insertSorted s l → y = s ∨ y ∈ l := by
  induction l with
  | nil =>
    intro h
    left
    simpa [insertSorted] using h
  | cons x xs ih =>
    intro h
    unfold insertSorted at h
    by_cases hle : pyLe s x = true
    · rw [if_pos hle] at h
      exact List.mem_cons.mp h
    · rw [if_neg hle] at h
      rcases List.mem_cons.mp h with h' | h'
      · right
        rw [h']
        exact List.mem_cons_self x xs
      · rcases ih h' with h'' | h''
        · left; exact h''
        · right; exact List.mem_cons_of_mem x h''

theorem pairwise_insertSorted (s : String) (l : List String)
    (hl : l.Pairwise (fun a b => pyLe a b = true)) :
    (insertSorted s l).Pairwise (fun a b => pyLe a b = true) := by
  induction l with
  | nil => simp [insertSorted]
  | cons x xs ih =>
    rcases List.pairwise_cons.mp hl with ⟨hx, hxs⟩
    unfold insertSorted
    by_cases hle : pyLe s x = true
    · rw [if_pos hle]
      refine List.pairwise_cons.mpr ⟨?_, hl⟩
      intro y hy
      rcases List.mem_cons.mp hy with rfl | hy'
      · exact hle
      · exact pyLe_trans s x y hle (hx y hy')
    · rw [if_neg hle]
      refine List.pairwise_cons.mpr ⟨?_, ih hxs⟩
      intro y hy
      rcases mem_insertSorted y s xs hy with heq | hy'
      · rcases pyLe_total s x with h | h
        · exact absurd h hle
        · rw [heq]; exact h
      · exact hx y hy'

theorem pairwise_pySorted (l : List String) :
    (pySorted l).Pairwise (fun a b => pyLe a b = true) := by
  induction l with
  | nil => simp [pySorted]
  | cons x xs ih => exact pairwise_insertSorted x (pySorted xs) ih

end PyStr

namespace BronzeToSilver

theorem dropDupByKeyFirst_filter (l : List PRow) :
    ∀ (seen : List String) (k : String),
      (dropDupByKeyFirst l seen).filter (fun r => r.projectID == k) =
        if k ∈ seen then [] else (l.find? (fun r => r.projectID == k)).toList := by
  induction l with
  | nil =>
    intro seen k
    simp [dropDupByKeyFirst]
  | cons r rs ih =>
    intro seen k
    unfold dropDupByKeyFirst
    by_cases hseen : r.projectID ∈ seen
    · rw [if_pos hseen, ih]
      by_cases hk : k ∈ seen
      · rw [if_pos hk, if_pos hk]
      · have hne : (r.projectID == k) = false := by
          simp only [beq_eq_false_iff_ne]
          intro he
          exact hk (he ▸ hseen)
        rw [if_neg hk, if_neg hk]
        simp [List.find?_cons, hne]
    · rw [if_neg hseen, List.filter_cons]
      by_cases hrk : (r.projectID == k) = true
      · have hknot : k ∉ seen := fun hk => hseen ((eq_of_beq hrk) ▸ hk)
        have hkmem : k ∈ r.projectID :: seen := by
          rw [eq_of_beq hrk]
          exact List.mem_cons_self _ _
        rw [if_pos hrk, ih, if_pos hkmem, if_neg hknot]
        simp [List.find?_cons, hrk]
      · have hrkf : (r.projectID == k) = false := Bool.not_eq_true _ ▸ hrk
        have hne' : r.projectID ≠ k := beq_eq_false_iff_ne.mp hrkf
        rw [if_neg hrk, ih]
        by_cases hk : k ∈ seen
        · rw [if_pos (List.mem_cons_of_mem _ hk), if_pos hk]
        · rw [if_neg (fun hc => (List.mem_cons.mp hc).elim (fun h' => hne' h'.symm) hk),
              if_neg hk]
          simp [List.find?_cons, hrkf]

end BronzeToSilver

namespace SilverToGold

theorem mem_dropDupFirst {α : Type} [DecidableEq α] (l : List α) :
    ∀ (seen : List α) (y : α), y ∈ dropDupFirst l seen → y ∈ l := by
  induction l with
  | nil =>
    intro seen y h
    simp [dropDupFirst] at h
  | cons x xs ih =>
    intro seen y h
    unfold dropDupFirst at h
    by_cases hx : x ∈ seen
    · rw [if_pos hx] at h
      exact List.mem_cons_of_mem x (ih _ y h)
    · rw [if_neg hx] at h
      rcases List.mem_cons.mp h with h' | h'
      · rw [h']
        exact List.mem_cons_self x xs
      · exact List.mem_cons_of_mem x (ih _ y h')

end SilverToGold

namespace IndexProjects

theorem row_selected_iff (existing : List (Int × String)) (pid : Int) (h : String) :
    row_selected existing pid h = true ↔
      (List.lookup pid existing = none ∨ ¬ List.lookup pid existing = some h) := by
  unfold row_selected isin map_fillna
  rcases hl : List.lookup pid existing with _ | s <;> simp [hl]

end IndexProjects

/-! ## Claim theorems -/

/-- C1: contrary to the claim, `run_full()` does not run the bronze→silver
transformation over every dataset and does not run the silver→gold build:
with the repository's modules it invokes
`bronze_to_silver.run_files(changed_files=[])`, which executes no handler,
and `_run_silver_to_gold(None)`, which returns as an explicit no-op; only
the store synchronization executes. -/
theorem run_full_bronze_and_gold_stages_are_noops :
    RunEtl.run_full.b2s = .ok (.runFiles []) ∧
    (BronzeToSilver.run_files []).executed = [] ∧
    RunEtl.run_full.s2g = .ok .noop ∧
    RunEtl.run_full.sync_ran = true :=
  ⟨rfl, rfl, rfl, rfl⟩

/-- C2: contrary to the claim, `run_subset(["project.csv"])` does not
execute the projects handler: the orchestrator rebuilds the changed names
as absolute paths (`/lake/bronze/project.csv`) before calling `run_files`,
whose `FILE_TO_FUNC` mapping is keyed by plain basenames, so the lookup
misses, the path is only warned about, and no handler runs. -/
theorem run_subset_project_csv_executes_no_handler :
    (RunEtl.run_subset ["project.csv"]).sources = ["projects"] ∧
    (RunEtl.run_subset ["project.csv"]).b2s =
      some (.ok (.runFiles ["/lake/bronze/project.csv"])) ∧
    (BronzeToSilver.run_files ["/lake/bronze/project.csv"]).executed = [] ∧
    (BronzeToSilver.run_files ["/lake/bronze/project.csv"]).warned =
      ["/lake/bronze/project.csv"] :=
  ⟨rfl, rfl, rfl, rfl⟩

/-- C3: contrary to the claim, the table replacements of the store
synchronizer do not run inside the per-run transaction: every
`df.to_sql(..., con=engine, ...)` statement runs on its own engine
connection (committed independently), so when the run fails right before
its third statement — the second table's load — the first table's
replacement is already committed instead of rolled back. -/
theorem sync_run_table_loads_not_in_run_transaction :
    SyncToSupabase.replacement_conns
        (SyncToSupabase.run_effects SyncToSupabase.goldTwoTables none) =
      [.engine, .engine] ∧
    SyncToSupabase.committed_replacements
        (SyncToSupabase.run_effects SyncToSupabase.goldTwoTables none) 2 =
      ["dim_project"] :=
  ⟨rfl, rfl⟩

/-- C4 counterexample: a batch of two texts answered by a single vector is
not a hard error — `_embed_batch_sync` accepts the reply as-is, and the
pairing loop silently drops the second row, upserting one entry. -/
theorem embed_count_mismatch_not_an_error :
    IndexProjects._embed_batch_sync ["t1", "t2"] (.listResp [[7]]) = .ok [[7]] ∧
    IndexProjects.batch_inserts (fun s => s)
        [IndexProjects.rowT1, IndexProjects.rowT2] [[7]] =
      [{ project_id := 1, text_hash := "t1 |  |  |", embedding := [7] }] :=
  ⟨rfl, rfl⟩

/-- C4 (amended): the indexer performs no count check on the embedding
service reply: any well-formed response is accepted as-is regardless of its
length, and the pairing loop zips rows with vectors, truncating to the
shorter side — the upsert count is `min` of the two lengths, never a
raise. -/
theorem embed_count_mismatch_silently_truncates :
    (∀ (texts : List String) (vecs : List IndexProjects.Vec),
      IndexProjects._embed_batch_sync texts (.listResp vecs) = .ok vecs) ∧
    (∀ (hash : String → String) (chunk : List IndexProjects.ProjRow)
        (vecs : List IndexProjects.Vec),
      (IndexProjects.batch_inserts hash chunk vecs).length =
        min chunk.length vecs.length) := by
  constructor
  · intro texts vecs
    rfl
  · intro hash chunk vecs
    unfold IndexProjects.batch_inserts
    rw [List.length_map, List.length_zip]

/-- C5: the change detector agrees with the spec's rule — without force it
returns the sorted names whose mtime strictly increased, files absent from
the previous mapping counting as changed (their recorded mtime defaults to
0 and real mtimes are positive); with force it returns the sorted names of
all present files; and in both modes the returned list is sorted. -/
theorem changed_files_match_spec (prev curr : List (String × Nat)) (force : Bool)
    (hpos : ∀ p ∈ curr, 0 < p.2) :
    WatchAnyFile.wait_changed prev curr force =
      WatchAnyFile.changed_spec prev curr force ∧
    (WatchAnyFile.wait_changed prev curr force).Pairwise
      (fun a b => PyStr.pyLe a b = true) := by
  constructor
  · unfold WatchAnyFile.wait_changed WatchAnyFile.changed_spec
    cases force
    · rw [if_neg (by decide), if_neg (by decide)]
      refine congrArg PyStr.pySorted (congrArg (List.map Prod.fst) ?_)
      refine List.filter_congr ?_
      intro p hp
      rcases hl : List.lookup p.1 prev with _ | m0
      · simp only [hl, Option.getD_none]
        exact decide_eq_true (hpos p hp)
      · simp only [hl, Option.getD_some]
    · rfl
  · unfold WatchAnyFile.wait_changed
    cases force
    · rw [if_neg (by decide)]
      exact PyStr.pairwise_pySorted _
    · rw [if_pos (by decide)]
      exact PyStr.pairwise_pySorted _

/-- Witness for C5 at the spec's own example: previous mtimes
a↦100, b↦100 and current c↦200, a↦100, b↦150 (dict in that insertion
order) give the changed set ["b", "c"]; with force the full sorted name
list ["a", "b", "c"]. -/
theorem changed_files_match_spec_witness :
    (∀ p ∈ ([("c", 200), ("a", 100), ("b", 150)] : List (String × Nat)), 0 < p.2) ∧
    (WatchAnyFile.wait_changed [("a", 100), ("b", 100)]
        [("c", 200), ("a", 100), ("b", 150)] false =
      WatchAnyFile.changed_spec [("a", 100), ("b", 100)]
        [("c", 200), ("a", 100), ("b", 150)] false ∧
      (WatchAnyFile.wait_changed [("a", 100), ("b", 100)]
          [("c", 200), ("a", 100), ("b", 150)] false).Pairwise
        (fun a b => PyStr.pyLe a b = true)) ∧
    WatchAnyFile.wait_changed [("a", 100), ("b", 100)]
        [("c", 200), ("a", 100), ("b", 150)] false = ["b", "c"] ∧
    WatchAnyFile.wait_changed [("a", 100), ("b", 100)]
        [("c", 200), ("a", 100), ("b", 150)] true = ["a", "b", "c"] :=
  ⟨by decide,
   changed_files_match_spec [("a", 100), ("b", 100)]
     [("c", 200), ("a", 100), ("b", 150)] false (by decide),
   rfl, rfl⟩

/-- C6: a snapshot row is selected for (re)embedding exactly when the
destination holds no hash for its id or the stored hash differs from the
freshly computed hash of its concatenation text; and a row whose stored
hash equals the recomputed hash is dropped from `to_compute`, contributes
no embedding-service input, and produces no upsert (removing it from the
snapshot changes neither the posted texts nor the upsert payload). -/
theorem unchanged_hash_row_selected_nothing
    (existing : List (Int × String)) (hash : String → String)
    (rows pre post : List IndexProjects.ProjRow) (r : IndexProjects.ProjRow)
    (batch : Nat)
    (hstored : List.lookup r.project_id existing =
      some (hash (IndexProjects._concat_text r))) :
    (∀ r', r' ∈ IndexProjects.to_compute existing hash rows ↔
      (r' ∈ rows ∧ (List.lookup r'.project_id existing = none ∨
        ¬ List.lookup r'.project_id existing =
          some (hash (IndexProjects._concat_text r'))))) ∧
    IndexProjects.to_compute existing hash (pre ++ r :: post) =
      IndexProjects.to_compute existing hash (pre ++ post) ∧
    IndexProjects.embed_inputs existing hash (pre ++ r :: post) batch =
      IndexProjects.embed_inputs existing hash (pre ++ post) batch ∧
    ∀ svc, IndexProjects.upserts svc existing hash (pre ++ r :: post) batch =
      IndexProjects.upserts svc existing hash (pre ++ post) batch := by
  have hsel : IndexProjects.row_selected existing r.project_id
      (hash (IndexProjects._concat_text r)) = false := by
    rw [Bool.eq_false_iff]
    intro ht
    rcases (IndexProjects.row_selected_iff _ _ _).mp ht with h0 | h0
    · rw [hstored] at h0
      exact Option.noConfusion h0
    · exact h0 hstored
  have hto : IndexProjects.to_compute existing hash (pre ++ r :: post) =
      IndexProjects.to_compute existing hash (pre ++ post) := by
    unfold IndexProjects.to_compute
    rw [List.filter_append, List.filter_append, List.filter_cons]
    rw [if_neg (by rw [hsel]; exact Bool.false_ne_true)]
  refine ⟨?_, hto, ?_, ?_⟩
  · intro r'
    unfold IndexProjects.to_compute
    rw [List.mem_filter]
    constructor
    · rintro ⟨hm, hs⟩
      exact ⟨hm, (IndexProjects.row_selected_iff _ _ _).mp hs⟩
    · rintro ⟨hm, hs⟩
      exact ⟨hm, (IndexProjects.row_selected_iff _ _ _).mpr hs⟩
  · unfold IndexProjects.embed_inputs
    rw [hto]
  · intro svc
    unfold IndexProjects.upserts
    rw [hto]

/-- Witness for C6: with the identity hash, a destination storing for id 1
the hash of `rowT1`'s text, and the snapshot `[rowT1, rowT2]`, removing
`rowT1` changes nothing: it is not re-embedded and not upserted. -/
theorem unchanged_hash_row_selected_nothing_witness :
    List.lookup IndexProjects.rowT1.project_id IndexProjects.existingT1 =
      some ((fun s => s) (IndexProjects._concat_text IndexProjects.rowT1)) ∧
    IndexProjects.to_compute IndexProjects.existingT1 (fun s => s)
        ([] ++ IndexProjects.rowT1 :: [IndexProjects.rowT2]) =
      IndexProjects.to_compute IndexProjects.existingT1 (fun s => s)
        ([] ++ [IndexProjects.rowT2]) ∧
    IndexProjects.embed_inputs IndexProjects.existingT1 (fun s => s)
        ([] ++ IndexProjects.rowT1 :: [IndexProjects.rowT2]) 128 =
      IndexProjects.embed_inputs IndexProjects.existingT1 (fun s => s)
        ([] ++ [IndexProjects.rowT2]) 128 :=
  ⟨rfl,
   (unchanged_hash_row_selected_nothing IndexProjects.existingT1 (fun s => s)
     [IndexProjects.rowT1, IndexProjects.rowT2] [] [IndexProjects.rowT2]
     IndexProjects.rowT1 128 rfl).2.1,
   (unchanged_hash_row_selected_nothing IndexProjects.existingT1 (fun s => s)
     [IndexProjects.rowT1, IndexProjects.rowT2] [] [IndexProjects.rowT2]
     IndexProjects.rowT1 128 rfl).2.2.1⟩

/-- C7: when the silver→gold module lacks `run_targets` and the
bronze→silver module lacks `run_files` and has no `run(only=...)`
(no `run` at all, or a `run` without the `only` parameter), the partial
wrappers raise for any non-empty requested subset and return no successful
invocation whatsoever — in particular they never fall back to a full
run. -/
theorem missing_partial_entrypoints_raise
    (mb : RunEtl.B2SModule) (ms : RunEtl.S2GModule)
    (only_sources files targets : List String)
    (hts : targets ≠ [])
    (hms : ms.has_run_targets = false)
    (hmb1 : mb.has_run_files = false)
    (hmb2 : mb.has_run = false ∨ mb.run_accepts_only = false) :
    (∃ e, RunEtl._run_silver_to_gold ms targets = .error e) ∧
    (∀ c, ¬ RunEtl._run_silver_to_gold ms targets = .ok c) ∧
    (∃ e, RunEtl._run_bronze_to_silver mb only_sources files = .error e) ∧
    (∀ c, ¬ RunEtl._run_bronze_to_silver mb only_sources files = .ok c) := by
  have hte : targets.isEmpty = false := by
    cases targets with
    | nil => exact absurd rfl hts
    | cons t ts => rfl
  have hs2g : ∃ e, RunEtl._run_silver_to_gold ms targets = .error e := by
    unfold RunEtl._run_silver_to_gold
    rw [hte, hms]
    exact ⟨_, rfl⟩
  have hb2s : ∃ e, RunEtl._run_bronze_to_silver mb only_sources files = .error e := by
    unfold RunEtl._run_bronze_to_silver
    rw [hmb1]
    rcases hmb2 with hr | ha
    · rw [hr]
      exact ⟨_, rfl⟩
    · rcases hr : mb.has_run with _ | _
      · exact ⟨_, rfl⟩
      · rw [ha]
        exact ⟨_, rfl⟩
  refine ⟨hs2g, ?_, hb2s, ?_⟩
  · intro c hc
    rcases hs2g with ⟨e, he⟩
    rw [he] at hc
    exact Except.noConfusion hc
  · intro c hc
    rcases hb2s with ⟨e, he⟩
    rw [he] at hc
    exact Except.noConfusion hc

/-- Witness for C7: a silver→gold module without `run_targets` and a
bronze→silver module whose `run` lacks the `only` parameter, with the
non-empty subset ["dim_project"] / sources ["projects"]. -/
theorem missing_partial_entrypoints_raise_witness :
    (["dim_project"] : List String) ≠ [] ∧
    ((∃ e, RunEtl._run_silver_to_gold ⟨false⟩ ["dim_project"] = .error e) ∧
     (∀ c, ¬ RunEtl._run_silver_to_gold ⟨false⟩ ["dim_project"] = .ok c) ∧
     (∃ e, RunEtl._run_bronze_to_silver ⟨false, true, false⟩ ["projects"]
        ["/lake/bronze/project.csv"] = .error e) ∧
     (∀ c, ¬ RunEtl._run_bronze_to_silver ⟨false, true, false⟩ ["projects"]
        ["/lake/bronze/project.csv"] = .ok c)) :=
  ⟨by decide,
   missing_partial_entrypoints_raise ⟨false, true, false⟩ ⟨false⟩
     ["projects"] ["/lake/bronze/project.csv"] ["dim_project"]
     (by decide) rfl rfl (Or.inr rfl)⟩

/-- C8 counterexample: a (hypothetical) table with 60001 columns gets chunk
size `max 1 (60000 / 60001) = 1`, which strictly exceeds
`floor(MAX_PARAMS / N) = 0` — the claimed bound fails as stated for column
counts above `MAX_PARAMS`. -/
theorem chunksize_bound_fails_at_60001 :
    ¬ SyncToSupabase._safe_chunksize 60001 ≤
        SyncToSupabase.MAX_PARAMS / 60001 := by decide

/-- C8 (amended): the chunk row count is `max 1 (MAX_PARAMS / N)`; for
every table whose column count `N` satisfies `1 ≤ N ≤ MAX_PARAMS` (every
realizable gold table) it equals and hence never exceeds
`floor(MAX_PARAMS / N)` rows per statement. -/
theorem chunksize_le_floor (n : Nat) (h1 : 1 ≤ n)
    (h2 : n ≤ SyncToSupabase.MAX_PARAMS) :
    SyncToSupabase._safe_chunksize n ≤ SyncToSupabase.MAX_PARAMS / n := by
  unfold SyncToSupabase._safe_chunksize
  rw [Nat.max_eq_right h1]
  exact max_le ((Nat.one_le_div_iff (by omega)).mpr h2) le_rfl

/-- Witness for C8 (amended) at a 7-column table: chunk size 8571 =
floor(60000 / 7). -/
theorem chunksize_le_floor_witness :
    1 ≤ 7 ∧ 7 ≤ SyncToSupabase.MAX_PARAMS ∧
      SyncToSupabase._safe_chunksize 7 ≤ SyncToSupabase.MAX_PARAMS / 7 :=
  ⟨by decide, by decide, chunksize_le_floor 7 (by decide) (by decide)⟩

/-- C9 counterexample: a relation row whose raw `projectID` is missing
(`NaN`) is NOT dropped by `build_fact_funding`: `astype(str)` renders the
missing id as the literal string "nan", which passes
`dropna(subset=["projectID", "org_sk"])`, so the row is emitted with
projectID "nan" (and its resolved org_sk). -/
theorem fact_funding_missing_projectid_kept :
    SilverToGold.build_fact_funding
        [{ organisationID := "O1", projectID := none, ecContribution := some 5 }]
        [(1, "O1")] [] =
      some [{ projectID := "nan", org_sk := some 1,
              ecContribution := some 5, year := none }] := rfl

/-- C9 (amended): every row emitted by `build_fact_funding` has a resolved,
non-null `org_sk` — rows whose organisation fails to resolve a surrogate
key are dropped — and its `projectID` is a non-null string; but rows
lacking a raw project id are not dropped: string normalization emits them
with the literal `projectID` "nan". -/
theorem fact_funding_rows_have_org_sk
    (rel : List SilverToGold.RelRow) (dorg : List (Nat × String))
    (dp : List (String × Int)) (out : List SilverToGold.FactRow)
    (hout : SilverToGold.build_fact_funding rel dorg dp = some out) :
    ∀ row ∈ out, row.org_sk.isSome = true := by
  intro row hrow
  unfold SilverToGold.build_fact_funding at hout
  split at hout
  · exact Option.noConfusion hout
  · injection hout with hout
    subst hout
    rcases List.mem_flatMap.mp hrow with ⟨t, ht, hrowt⟩
    rcases List.mem_map.mp hrowt with ⟨y, hy, hrowy⟩
    have hts := SilverToGold.mem_dropDupFirst _ _ _ ht
    have hsk := (List.mem_filter.mp hts).2
    rw [← hrowy]
    exact hsk

/-- Witness for C9 (amended): a fully-populated relation row resolves
org_sk 4 and the emitted row's org_sk is non-null. -/
theorem fact_funding_rows_have_org_sk_witness :
    SilverToGold.build_fact_funding
        [{ organisationID := "O2", projectID := some "P9", ecContribution := some 3 }]
        [(4, "O2")] [] =
      some [{ projectID := "P9", org_sk := some 4,
              ecContribution := some 3, year := none }] ∧
    (∀ row, row ∈ [SilverToGold.FactRow.mk "P9" (some 4) (some 3) none] →
      row.org_sk.isSome = true) :=
  ⟨rfl,
   fact_funding_rows_have_org_sk
     [{ organisationID := "O2", projectID := some "P9", ecContribution := some 3 }]
     [(4, "O2")] [] [SilverToGold.FactRow.mk "P9" (some 4) (some 3) none] rfl⟩

/-- C10: when the raw projects dataset holds several rows with the same
`projectID`, the silver snapshot keeps exactly the first-occurring row for
that key (after the per-row conversions): for every key, filtering the
output at the key yields precisely the converted first input row found for
it, never a later one. -/
theorem projects_dedup_keeps_first_row
    (convert : String → String) (rows : List BronzeToSilver.PRow) (k : String) :
    (BronzeToSilver.run_projects_silver convert rows).filter
        (fun r => r.projectID == k) =
      ((rows.find? (fun r => r.projectID == k)).map
        (fun r => (⟨r.projectID, convert r.payload⟩ : BronzeToSilver.PRow))).toList := by
  unfold BronzeToSilver.run_projects_silver
  rw [BronzeToSilver.dropDupByKeyFirst_filter]
  rw [if_neg (List.not_mem_nil k)]
  rw [List.find?_map]
  rfl
